import Mathlib

/-!  Verification of the Meteor Impact effects model and ring-map renderer.

The definitions below are a shallow embedding of `main.py`: Python floats are
modelled as real numbers, the dictionary of named damage radii as a structure,
and the stateful Qt graphics view as explicit state passing.  Every definition
follows the corresponding Python function; spec-side reference definitions are
clearly marked as such.
-/

namespace Meteor

noncomputable section

open Real

/-- `volume_sphere` from main.py: sphere volume from diameter. -/
def volume_sphere (d_m : ℝ) : ℝ := 4/3 * π * (d_m/2)^3

/-- `mass_from_diameter` from main.py: mass = density times sphere volume. -/
def mass_from_diameter (d_m : ℝ) (rho : ℝ) : ℝ := rho * volume_sphere d_m

/-- `kinetic_energy_joules` from main.py: `0.5 * m * (v*1000)**2`. -/
def kinetic_energy_joules (m_kg : ℝ) (v_km_s : ℝ) : ℝ :=
  0.5 * m_kg * (v_km_s * 1000.0)^2

/-- `joules_to_megatons_tnt` from main.py: `E / 4.184e15`. -/
def joules_to_megatons_tnt (E_j : ℝ) : ℝ := E_j / 4.184e15

/-- Python `math.radians`: degrees to radians. -/
def radians (x : ℝ) : ℝ := x * π / 180

/-- `surface_yield_mt` from main.py: clamp angle to [1,90], coupling factor
`0.55 + 0.5*sin`, capped at 1, floored result. -/
def surface_yield_mt (kinetic_mt : ℝ) (angle_deg : ℝ) : ℝ :=
  let theta := max 1.0 (min 90.0 angle_deg)
  let f := 0.55 + 0.5 * Real.sin (radians theta)
  max (kinetic_mt * min f 1.0) 1e-9

/-- `scaled_radius_km` from main.py: `k * (max(yield,1e-12) ** (1/3))`. -/
def scaled_radius_km (yield_mt : ℝ) (k : ℝ) : ℝ :=
  k * (max yield_mt 1e-12) ^ ((1:ℝ)/3)

/-- The result dictionary of `impact_effects` in main.py, as a structure with
its fixed keys. -/
structure EffectsResult where
  effective_surface_yield_mt : ℝ
  severe_blast_km : ℝ
  moderate_blast_km : ℝ
  light_blast_km : ℝ
  severe_thermal_km : ℝ
  light_thermal_km : ℝ

/-- The dictionary returned by `blast_radii_km` in main.py. -/
structure BlastRadii where
  severe_blast_km : ℝ
  moderate_blast_km : ℝ
  light_blast_km : ℝ

/-- The dictionary returned by `thermal_radii_km` in main.py. -/
structure ThermalRadii where
  severe_thermal_km : ℝ
  light_thermal_km : ℝ

/-- `blast_radii_km` from main.py. -/
def blast_radii_km (yield_mt_surface : ℝ) : BlastRadii :=
  { severe_blast_km := scaled_radius_km yield_mt_surface 1.1
    moderate_blast_km := scaled_radius_km yield_mt_surface 2.2
    light_blast_km := scaled_radius_km yield_mt_surface 3.8 }

/-- `thermal_radii_km` from main.py. -/
def thermal_radii_km (yield_mt_surface : ℝ) : ThermalRadii :=
  { severe_thermal_km := scaled_radius_km yield_mt_surface 1.6
    light_thermal_km := scaled_radius_km yield_mt_surface 4.5 }

/-- `impact_effects` from main.py: the merged result dictionary. -/
def impact_effects (yield_mt_kinetic : ℝ) (angle_deg : ℝ) : EffectsResult :=
  let Y := surface_yield_mt yield_mt_kinetic angle_deg
  { effective_surface_yield_mt := Y
    severe_blast_km := (blast_radii_km Y).severe_blast_km
    moderate_blast_km := (blast_radii_km Y).moderate_blast_km
    light_blast_km := (blast_radii_km Y).light_blast_km
    severe_thermal_km := (thermal_radii_km Y).severe_thermal_km
    light_thermal_km := (thermal_radii_km Y).light_thermal_km }

/-- The full computation performed by `MainWindow.on_calc` in main.py before
handing the effects to the view: mass, energy, kinetic yield, effects. -/
def computeEffects (d v rho angle : ℝ) : EffectsResult :=
  impact_effects (joules_to_megatons_tnt (kinetic_energy_joules (mass_from_diameter d rho) v)) angle

/-- The stored effects dictionary of `RingsView` in main.py: `present` is the
Python truthiness of the dict (non-empty), `get` is `dict.get(key, 0.0)`. -/
structure EffectsDict where
  present : Bool
  get : String → ℝ

/-- The empty dictionary `{}`. -/
def emptyDict : EffectsDict := ⟨false, fun _ => 0⟩

/-- A truthy dictionary whose five radius lookups are all zero (for example a
dict holding only non-radius keys, or explicit zero radii). -/
def allZeroDict : EffectsDict := ⟨true, fun _ => 0⟩

/-- The mutable view state of `RingsView` in main.py that the claims concern:
center coordinate, effects dict, zoom and pan offset. -/
structure RingsState where
  lat : ℝ
  lon : ℝ
  effects : EffectsDict
  zoom : ℝ
  pan_dx : ℝ
  pan_dy : ℝ

/-- `RingsView.set_data` from main.py: store `effects or {}`, reset zoom to 1
and pan to (0,0). -/
def set_data (lat lon : ℝ) (effects : EffectsDict) : RingsState :=
  { lat := lat, lon := lon,
    effects := if effects.present then effects else emptyDict,
    zoom := 1.0, pan_dx := 0.0, pan_dy := 0.0 }

/-- `RingsView.wheelEvent` from main.py: no-op when the wheel delta is exactly
zero, otherwise multiply the zoom by 1.2 (delta > 0) or 1/1.2 (delta < 0) and
clamp into [0.2, 20.0]. -/
def wheelEvent (deltaY : ℝ) (s : RingsState) : RingsState :=
  if deltaY = 0 then s
  else { s with zoom := min 20.0 (max 0.2 (s.zoom * (if 0 < deltaY then 1.2 else 1/1.2))) }

/-- `RingsView.mouseDoubleClickEvent` from main.py: reset zoom and pan. -/
def mouseDoubleClickEvent (s : RingsState) : RingsState :=
  { s with zoom := 1.0, pan_dx := 0.0, pan_dy := 0.0 }

/-- The key list used by `RingsView.redraw` in main.py to compute `Rmax_km`. -/
def radiusKeys : List String :=
  ["light_blast_km", "moderate_blast_km", "severe_blast_km",
   "light_thermal_km", "severe_thermal_km"]

/-- Python `max(list, default=dflt)`: fold of binary max, default on empty. -/
def pyListMax (l : List ℝ) (dflt : ℝ) : ℝ :=
  match l with
  | [] => dflt
  | v :: vs => vs.foldl max v

/-- The `Rmax_km` block of `RingsView.redraw` in main.py: 1.0 unless the dict
is truthy, in which case the maximum of the nonzero (`if v`) radius values,
defaulting to 1.0 when none remain. -/
def rmaxOf (e : EffectsDict) : ℝ :=
  if e.present then
    pyListMax ((radiusKeys.map e.get).filter (fun v => decide (v ≠ 0))) 1.0
  else 1.0

/-- `RingsView._nice_step` from main.py: snap to {1,2,5,10} times the
power-of-ten bracket of `x`. -/
def nice_step (x : ℝ) : ℝ :=
  if x ≤ 0 then 1.0
  else
    let e : ℤ := ⌊Real.logb 10 x⌋
    let frac := x / (10:ℝ)^e
    if frac < 1.5 then 1.0 * (10:ℝ)^e
    else if frac < 3.5 then 2.0 * (10:ℝ)^e
    else if frac < 7.5 then 5.0 * (10:ℝ)^e
    else 10.0 * (10:ℝ)^e

/-- The km offsets at which the grid-line loops of `RingsView.redraw` draw a
line: `x0` starts at `-floor(half/step)*step` and advances by `step` while
`x0 ≤ half + 1e-9`. -/
def gridOffsets (half_km step : ℝ) : List ℝ :=
  let m : ℤ := ⌊half_km / step⌋
  let M : ℤ := ⌊(half_km + 1e-9) / step⌋
  (List.range (M + m + 1).toNat).map (fun (j : ℕ) => (((-m + (j:ℤ)) : ℤ) : ℝ) * step)

/-- The scene produced by one `RingsView.redraw` call: the computed scale
quantities, the km offsets of the grid lines, the scale bar, and the radii of
the rings actually drawn (in draw order). -/
structure Scene where
  cx : ℝ
  cy : ℝ
  Rmax_km : ℝ
  px_per_km : ℝ
  km_per_px : ℝ
  step_km : ℝ
  gridXs : List ℝ
  gridYs : List ℝ
  km_len : ℝ
  px_len : ℝ
  ringsDrawn : List ℝ

/-- The body of `RingsView.redraw` from main.py past the viewport guard. -/
def buildScene (e : EffectsDict) (zoom pan_dx pan_dy W H : ℝ) : Scene :=
  let cx := W / 2 + pan_dx
  let cy := H / 2 + pan_dy
  let Rmax_km := rmaxOf e
  let px_per_km := (min W H / 2) / (max Rmax_km 1e-9 * 1.10) * zoom
  let km_per_px := 1.0 / px_per_km
  let step_km := nice_step (120.0 * km_per_px)
  let half_w_km := (W / 2) * km_per_px
  let half_h_km := (H / 2) * km_per_px
  let km_len := nice_step (150.0 * km_per_px)
  { cx := cx, cy := cy, Rmax_km := Rmax_km, px_per_km := px_per_km,
    km_per_px := km_per_px, step_km := step_km,
    gridXs := gridOffsets half_w_km step_km,
    gridYs := gridOffsets half_h_km step_km,
    km_len := km_len, px_len := km_len * px_per_km,
    ringsDrawn :=
      (if e.present then
          [e.get "light_thermal_km", e.get "severe_thermal_km", e.get "light_blast_km",
           e.get "moderate_blast_km", e.get "severe_blast_km"]
        else []).filter (fun r => decide (0 < r)) }

/-- `RingsView.redraw` from main.py: early return on a degenerate viewport,
otherwise the full scene. -/
def redraw (e : EffectsDict) (zoom pan_dx pan_dy W H : ℝ) : Option Scene :=
  if W ≤ 0 ∨ H ≤ 0 then none
  else some (buildScene e zoom pan_dx pan_dy W H)

/-- The radius maximum exactly as claim C5 words it: the maximum of the five
radii, defaulting to 1.0 only when no result set is present. -/
def claimRmax (e : EffectsDict) : ℝ :=
  if e.present then
    max (e.get "severe_blast_km") (max (e.get "moderate_blast_km")
      (max (e.get "light_blast_km") (max (e.get "severe_thermal_km")
        (e.get "light_thermal_km"))))
  else 1.0

/-- `classify_size` from main.py. -/
def classify_size (d_m : ℝ) : String :=
  if d_m < 10 then "<10m"
  else if d_m < 50 then "10-50m"
  else if d_m < 140 then "50-140m"
  else if d_m < 300 then "140-300m"
  else if d_m < 1000 then "300m-1km"
  else ">1km"

/-- `guess_event_type` from main.py (note the order of the two tests). -/
def guess_event_type (d_m : ℝ) (angle_deg : ℝ) : String :=
  if d_m < 60 ∧ angle_deg < 40 then "airburst"
  else if d_m < 30 then "airburst"
  else "ground"

/-- Reference definition following the spec's words: the surface-coupling
factor `min(0.55 + 0.5*sin(angle), 1.0)` applied by the model. -/
def specCouplingFactor (angle_deg : ℝ) : ℝ :=
  min (0.55 + 0.5 * Real.sin (radians angle_deg)) 1.0

/-- Pointwise comparison of all five radii of two effect results. -/
def radiiLE (e e' : EffectsResult) : Prop :=
  e.severe_blast_km ≤ e'.severe_blast_km ∧
  e.moderate_blast_km ≤ e'.moderate_blast_km ∧
  e.light_blast_km ≤ e'.light_blast_km ∧
  e.severe_thermal_km ≤ e'.severe_thermal_km ∧
  e.light_thermal_km ≤ e'.light_thermal_km

/-- Reference definition following the spec's words (for claim C1): mass from
the sphere volume, kinetic energy with km/s to m/s conversion before squaring,
yield conversion by 4.184e15 J/Mt, coupling factor capped at 1 and floored
result, and cube-root scaled radii with the five fixed constants. -/
def specComputeEffects (d v rho angle : ℝ) : EffectsResult :=
  let mass := rho * (4/3 * π * (d/2)^3)
  let E := 1/2 * mass * (1000 * v)^2
  let mt := E / 4.184e15
  let Y := max (mt * min (0.55 + 0.5 * Real.sin (radians angle)) 1.0) 1e-9
  { effective_surface_yield_mt := Y
    severe_blast_km := 1.1 * Y ^ ((1:ℝ)/3)
    moderate_blast_km := 2.2 * Y ^ ((1:ℝ)/3)
    light_blast_km := 3.8 * Y ^ ((1:ℝ)/3)
    severe_thermal_km := 1.6 * Y ^ ((1:ℝ)/3)
    light_thermal_km := 4.5 * Y ^ ((1:ℝ)/3) }

lemma ratio_cancel (a b : ℝ) {c : ℝ} (hc : c ≠ 0) : a * c / (b * c) = a / b := by
  rcases eq_or_ne b 0 with rfl | hb
  · simp
  · field_simp
    ring

lemma surface_yield_mt_ge (kinetic_mt angle_deg : ℝ) :
    1e-9 ≤ surface_yield_mt kinetic_mt angle_deg := le_max_right _ _

lemma scaled_radius_km_pos {k : ℝ} (hk : 0 < k) (y : ℝ) :
    0 < scaled_radius_km y k := by
  have hbase : (0:ℝ) < max y 1e-12 := lt_of_lt_of_le (by norm_num) (le_max_right _ _)
  exact mul_pos hk (Real.rpow_pos_of_pos hbase _)

lemma radians_nonneg {x : ℝ} (hx : 0 ≤ x) : 0 ≤ radians x := by
  unfold radians
  have := Real.pi_pos
  positivity

lemma radians_le_pi {x : ℝ} (hx : x ≤ 180) : radians x ≤ π := by
  unfold radians
  have hπ := Real.pi_pos
  rw [div_le_iff₀ (by norm_num)]
  nlinarith

lemma sin_radians_nonneg {x : ℝ} (h0 : 0 ≤ x) (h180 : x ≤ 180) :
    0 ≤ Real.sin (radians x) :=
  Real.sin_nonneg_of_nonneg_of_le_pi (radians_nonneg h0) (radians_le_pi h180)

lemma specCouplingFactor_mem {angle : ℝ} (h1 : 1 ≤ angle) (h90 : angle ≤ 90) :
    0.55 ≤ specCouplingFactor angle ∧ specCouplingFactor angle ≤ 1 := by
  unfold specCouplingFactor
  refine ⟨le_min ?_ (by norm_num), le_trans (min_le_right _ _) (by norm_num)⟩
  have := sin_radians_nonneg (by linarith : (0:ℝ) ≤ angle) (by linarith)
  linarith

lemma radians_le_pi_div_two {x : ℝ} (h : x ≤ 90) : radians x ≤ π / 2 := by
  unfold radians
  have := Real.pi_pos
  nlinarith

lemma neg_pi_div_two_le_radians {x : ℝ} (h : 0 ≤ x) : -(π / 2) ≤ radians x := by
  have := Real.pi_pos
  have := radians_nonneg h
  linarith

lemma radians_mono {x y : ℝ} (h : x ≤ y) : radians x ≤ radians y := by
  unfold radians
  have := Real.pi_pos
  nlinarith

/-- The clamped coupling factor `min(0.55+0.5*sin(...),1.0)` is nonnegative for
every raw angle (the sine is at least -1). -/
lemma coupling_term_nonneg (a : ℝ) :
    0 ≤ min (0.55 + 0.5 * Real.sin (radians (max 1.0 (min 90.0 a)))) 1.0 := by
  have hs := Real.neg_one_le_sin (radians (max 1.0 (min 90.0 a)))
  exact le_min (by linarith) (by norm_num)

lemma surface_yield_mt_mono_mt {mt mt' : ℝ} (a : ℝ) (h : mt ≤ mt') :
    surface_yield_mt mt a ≤ surface_yield_mt mt' a := by
  simp only [surface_yield_mt]
  exact max_le_max (mul_le_mul_of_nonneg_right h (coupling_term_nonneg a)) le_rfl

lemma surface_yield_mt_mono_angle {mt a a' : ℝ} (hmt : 0 ≤ mt)
    (h1 : 1 ≤ a) (haa : a ≤ a') (h90 : a' ≤ 90) :
    surface_yield_mt mt a ≤ surface_yield_mt mt a' := by
  simp only [surface_yield_mt]
  have hca : max 1.0 (min 90.0 a) = a := by
    rw [min_eq_right (by linarith), max_eq_right (by linarith)]
  have hca' : max 1.0 (min 90.0 a') = a' := by
    rw [min_eq_right (by linarith), max_eq_right (by linarith)]
  rw [hca, hca']
  refine max_le_max (mul_le_mul_of_nonneg_left (min_le_min ?_ le_rfl) hmt) le_rfl
  have hsin : Real.sin (radians a) ≤ Real.sin (radians a') := by
    refine Real.strictMonoOn_sin.monotoneOn ⟨?_, ?_⟩ ⟨?_, ?_⟩ (radians_mono haa)
    · exact neg_pi_div_two_le_radians (by linarith)
    · exact radians_le_pi_div_two (by linarith)
    · exact neg_pi_div_two_le_radians (by linarith)
    · exact radians_le_pi_div_two h90
  linarith

lemma scaled_radius_km_mono {y y' k : ℝ} (hk : 0 ≤ k) (h : y ≤ y') :
    scaled_radius_km y k ≤ scaled_radius_km y' k := by
  unfold scaled_radius_km
  refine mul_le_mul_of_nonneg_left ?_ hk
  exact Real.rpow_le_rpow (le_trans (by norm_num) (le_max_right y 1e-12))
    (max_le_max h le_rfl) (by norm_num)

lemma radiiLE_impact {mt mt' a a' : ℝ}
    (h : surface_yield_mt mt a ≤ surface_yield_mt mt' a') :
    radiiLE (impact_effects mt a) (impact_effects mt' a') :=
  ⟨scaled_radius_km_mono (by norm_num) h, scaled_radius_km_mono (by norm_num) h,
   scaled_radius_km_mono (by norm_num) h, scaled_radius_km_mono (by norm_num) h,
   scaled_radius_km_mono (by norm_num) h⟩

lemma kinetic_mt_mono_d {d d' v rho : ℝ} (hd : 0 < d) (hdd : d ≤ d')
    (hv : 0 < v) (hrho : 0 < rho) :
    joules_to_megatons_tnt (kinetic_energy_joules (mass_from_diameter d rho) v) ≤
      joules_to_megatons_tnt (kinetic_energy_joules (mass_from_diameter d' rho) v) := by
  unfold joules_to_megatons_tnt kinetic_energy_joules mass_from_diameter volume_sphere
  have hπ := Real.pi_pos
  gcongr

lemma kinetic_mt_mono_v {d v v' rho : ℝ} (hd : 0 < d) (hv : 0 < v)
    (hvv : v ≤ v') (hrho : 0 < rho) :
    joules_to_megatons_tnt (kinetic_energy_joules (mass_from_diameter d rho) v) ≤
      joules_to_megatons_tnt (kinetic_energy_joules (mass_from_diameter d rho) v') := by
  unfold joules_to_megatons_tnt kinetic_energy_joules mass_from_diameter volume_sphere
  have hπ := Real.pi_pos
  gcongr

lemma kinetic_mt_nonneg {d v rho : ℝ} (hd : 0 < d) (hv : 0 < v) (hrho : 0 < rho) :
    0 ≤ joules_to_megatons_tnt (kinetic_energy_joules (mass_from_diameter d rho) v) := by
  unfold joules_to_megatons_tnt kinetic_energy_joules mass_from_diameter volume_sphere
  have hπ := Real.pi_pos
  positivity

lemma EffectsResult.ext {e e' : EffectsResult}
    (h0 : e.effective_surface_yield_mt = e'.effective_surface_yield_mt)
    (h1 : e.severe_blast_km = e'.severe_blast_km)
    (h2 : e.moderate_blast_km = e'.moderate_blast_km)
    (h3 : e.light_blast_km = e'.light_blast_km)
    (h4 : e.severe_thermal_km = e'.severe_thermal_km)
    (h5 : e.light_thermal_km = e'.light_thermal_km) : e = e' := by
  cases e; cases e'; simp_all

lemma rpow_third_cube {a : ℝ} (ha : 0 ≤ a) : (a ^ (3:ℕ)) ^ ((1:ℝ)/3) = a := by
  rw [← Real.rpow_natCast a 3, ← Real.rpow_mul ha]
  norm_num

lemma cuberoot_le {a x : ℝ} (ha : 0 ≤ a) (h : a ^ (3:ℕ) ≤ x) :
    a ≤ x ^ ((1:ℝ)/3) := by
  calc a = (a ^ (3:ℕ)) ^ ((1:ℝ)/3) := (rpow_third_cube ha).symm
    _ ≤ x ^ ((1:ℝ)/3) := Real.rpow_le_rpow (by positivity) h (by norm_num)

lemma le_cuberoot {b x : ℝ} (hb : 0 ≤ b) (hx : 0 ≤ x) (h : x ≤ b ^ (3:ℕ)) :
    x ^ ((1:ℝ)/3) ≤ b := by
  calc x ^ ((1:ℝ)/3) ≤ (b ^ (3:ℕ)) ^ ((1:ℝ)/3) := Real.rpow_le_rpow hx h (by norm_num)
    _ = b := rpow_third_cube hb

lemma sqrt_two_gt : (1.414213:ℝ) < Real.sqrt 2 :=
  (Real.lt_sqrt (by norm_num)).mpr (by norm_num)

lemma sqrt_two_lt : Real.sqrt 2 < 1.414214 :=
  (Real.sqrt_lt' (by norm_num)).mpr (by norm_num)

lemma sin_radians_45 : Real.sin (radians 45) = Real.sqrt 2 / 2 := by
  have h : radians 45 = π / 4 := by unfold radians; ring
  rw [h, Real.sin_pi_div_four]

/-- C10: for all real inputs whatsoever the pipeline is total (it is a function
on all of ℝ), the effective surface yield is floored at 1e-9, the cube-root
base is floored at 1e-12 (hence positive, so the fractional power never sees a
negative base), and all five radii are strictly positive. -/
theorem C10_effects_total_radii_positive (d v rho angle : ℝ) :
    1e-9 ≤ (computeEffects d v rho angle).effective_surface_yield_mt ∧
    0 < max (computeEffects d v rho angle).effective_surface_yield_mt 1e-12 ∧
    (∀ y k : ℝ, scaled_radius_km y k = k * (max y 1e-12) ^ ((1:ℝ)/3) ∧ 1e-12 ≤ max y 1e-12) ∧
    0 < (computeEffects d v rho angle).severe_blast_km ∧
    0 < (computeEffects d v rho angle).moderate_blast_km ∧
    0 < (computeEffects d v rho angle).light_blast_km ∧
    0 < (computeEffects d v rho angle).severe_thermal_km ∧
    0 < (computeEffects d v rho angle).light_thermal_km := by
  refine ⟨surface_yield_mt_ge _ _,
    lt_of_lt_of_le (by norm_num) (le_trans (surface_yield_mt_ge _ _) (le_max_left _ _)),
    fun y k => ⟨rfl, le_max_right _ _⟩, ?_, ?_, ?_, ?_, ?_⟩ <;>
    exact scaled_radius_km_pos (by norm_num) _

/-- C1: for valid inputs the effects computation coincides with the spec's
reference definition (mass, energy, yield conversion, coupling, cube-root
radii with k = 1.1/2.2/3.8/1.6/4.5); and at the worked example
d=50 m, v=20 km/s, rho=3000 kg/m³, angle=45° the intermediate values lie in
intervals certifying the quoted two-significant-figure values
(mass ≈ 1.96e8 kg, E ≈ 3.93e16 J, kinetic yield ≈ 9.39 Mt, effective surface
yield ≈ 8.49 Mt, severe blast radius ≈ 2.24 km). -/
theorem C1_effects_reference (d v rho angle : ℝ)
    (hd : 0 < d) (hv : 0 < v) (hrho : 0 < rho) (h1 : 1 ≤ angle) (h90 : angle ≤ 90) :
    computeEffects d v rho angle = specComputeEffects d v rho angle ∧
    (1.955e8 < mass_from_diameter 50 3000 ∧ mass_from_diameter 50 3000 < 1.97e8) ∧
    (3.92e16 < kinetic_energy_joules (mass_from_diameter 50 3000) 20 ∧
      kinetic_energy_joules (mass_from_diameter 50 3000) 20 < 3.935e16) ∧
    (9.38 < joules_to_megatons_tnt (kinetic_energy_joules (mass_from_diameter 50 3000) 20) ∧
      joules_to_megatons_tnt (kinetic_energy_joules (mass_from_diameter 50 3000) 20) < 9.39) ∧
    (8.45 < (computeEffects 50 20 3000 45).effective_surface_yield_mt ∧
      (computeEffects 50 20 3000 45).effective_surface_yield_mt < 8.50) ∧
    (2.23 < (computeEffects 50 20 3000 45).severe_blast_km ∧
      (computeEffects 50 20 3000 45).severe_blast_km < 2.25) := by
  have hπl : (3.141592:ℝ) < π := Real.pi_gt_d6
  have hπu : π < 3.141593 := Real.pi_lt_d6
  constructor
  · -- the refinement equality
    have hclamp : max 1.0 (min 90.0 angle) = angle := by
      rw [min_eq_right (by linarith), max_eq_right (by linarith)]
    have hYe : surface_yield_mt
        (joules_to_megatons_tnt (kinetic_energy_joules (mass_from_diameter d rho) v)) angle
        = max ((1/2 * (rho * (4/3 * π * (d/2)^3)) * (1000 * v)^2 / 4.184e15) *
            min (0.55 + 0.5 * Real.sin (radians angle)) 1.0) 1e-9 := by
      simp only [surface_yield_mt, joules_to_megatons_tnt, kinetic_energy_joules,
        mass_from_diameter, volume_sphere, hclamp]
      congr 2
      ring
    have hfloor : ∀ B : ℝ, max (max B 1e-9) 1e-12 = max B 1e-9 := fun B =>
      max_eq_left (le_trans (by norm_num) (le_max_right _ _))
    refine EffectsResult.ext ?_ ?_ ?_ ?_ ?_ ?_ <;>
      simp only [computeEffects, impact_effects, blast_radii_km, thermal_radii_km,
        scaled_radius_km, specComputeEffects, hfloor, hYe]
  · -- the worked example
    have hMl : (1.955e8:ℝ) < mass_from_diameter 50 3000 := by
      unfold mass_from_diameter volume_sphere
      nlinarith
    have hMu : mass_from_diameter 50 3000 < 1.97e8 := by
      unfold mass_from_diameter volume_sphere
      nlinarith
    have hEl : (3.92e16:ℝ) < kinetic_energy_joules (mass_from_diameter 50 3000) 20 := by
      unfold kinetic_energy_joules mass_from_diameter volume_sphere
      nlinarith
    have hEu : kinetic_energy_joules (mass_from_diameter 50 3000) 20 < 3.935e16 := by
      unfold kinetic_energy_joules mass_from_diameter volume_sphere
      nlinarith
    have hmtl : (9.38:ℝ) <
        joules_to_megatons_tnt (kinetic_energy_joules (mass_from_diameter 50 3000) 20) := by
      unfold joules_to_megatons_tnt kinetic_energy_joules mass_from_diameter volume_sphere
      nlinarith
    have hmtu : joules_to_megatons_tnt (kinetic_energy_joules (mass_from_diameter 50 3000) 20)
        < 9.39 := by
      unfold joules_to_megatons_tnt kinetic_energy_joules mass_from_diameter volume_sphere
      nlinarith
    have hfl : (0.903553:ℝ) < 0.55 + 0.5 * (Real.sqrt 2 / 2) := by
      have := sqrt_two_gt
      linarith
    have hfu : 0.55 + 0.5 * (Real.sqrt 2 / 2) < 0.9035535 := by
      have := sqrt_two_lt
      linarith
    set Y45 : ℝ := (computeEffects 50 20 3000 45).effective_surface_yield_mt with hY45def
    set S45 : ℝ := (computeEffects 50 20 3000 45).severe_blast_km with hS45def
    clear_value Y45 S45
    have hY45 : Y45 =
        joules_to_megatons_tnt (kinetic_energy_joules (mass_from_diameter 50 3000) 20) *
          (0.55 + 0.5 * (Real.sqrt 2 / 2)) := by
      rw [hY45def]
      show surface_yield_mt
        (joules_to_megatons_tnt (kinetic_energy_joules (mass_from_diameter 50 3000) 20)) 45 = _
      simp only [surface_yield_mt]
      rw [min_eq_right (by norm_num : (45:ℝ) ≤ 90.0), max_eq_right (by norm_num : (1.0:ℝ) ≤ 45),
        sin_radians_45, min_eq_left (by linarith : 0.55 + 0.5 * (Real.sqrt 2 / 2) ≤ 1.0),
        max_eq_left]
      nlinarith
    have hYl : (8.45:ℝ) < Y45 := by
      rw [hY45]
      nlinarith
    have hYu : Y45 < 8.50 := by
      rw [hY45]
      nlinarith
    have hsev45 : S45 = 1.1 * Y45 ^ ((1:ℝ)/3) := by
      rw [hS45def, hY45def]
      show scaled_radius_km ((computeEffects 50 20 3000 45).effective_surface_yield_mt) 1.1 = _
      unfold scaled_radius_km
      rw [max_eq_left (by rw [← hY45def]; linarith :
        (1e-12:ℝ) ≤ (computeEffects 50 20 3000 45).effective_surface_yield_mt)]
    have hcrl : (2.0368:ℝ) ≤ Y45 ^ ((1:ℝ)/3) := by
      refine cuberoot_le (by norm_num) ?_
      have hcube : ((2.0368:ℝ)) ^ (3:ℕ) < 8.45 := by norm_num
      linarith
    have hcru : Y45 ^ ((1:ℝ)/3) ≤ 2.041 := by
      refine le_cuberoot (by norm_num) (by linarith) ?_
      have hcube : (8.50:ℝ) < ((2.041:ℝ)) ^ (3:ℕ) := by norm_num
      linarith
    refine ⟨⟨hMl, hMu⟩, ⟨hEl, hEu⟩, ⟨hmtl, hmtu⟩, ⟨hYl, hYu⟩, ?_, ?_⟩ <;>
      rw [hsev45] <;> linarith

/-- Witness for C1 at the spec's worked example input. -/
theorem C1_effects_reference_witness :
    computeEffects 50 20 3000 45 = specComputeEffects 50 20 3000 45 ∧
    2.23 < (computeEffects 50 20 3000 45).severe_blast_km ∧
    (computeEffects 50 20 3000 45).severe_blast_km < 2.25 :=
  ⟨(C1_effects_reference 50 20 3000 45 (by norm_num) (by norm_num) (by norm_num)
      (by norm_num) (by norm_num)).1,
   (C1_effects_reference 50 20 3000 45 (by norm_num) (by norm_num) (by norm_num)
      (by norm_num) (by norm_num)).2.2.2.2.2.1,
   (C1_effects_reference 50 20 3000 45 (by norm_num) (by norm_num) (by norm_num)
      (by norm_num) (by norm_num)).2.2.2.2.2.2⟩

/-- C2: for every valid input the five radii are fixed positive multiples of a
single positive cube-root factor, hence all pairwise ratios are the constant
coefficient ratios (severe/moderate = 1.1/2.2 and so on), and the blast and
thermal radii are ordered accordingly. -/
theorem C2_fixed_ratios (d v rho angle : ℝ) (hd : 0 < d) (hv : 0 < v) (hrho : 0 < rho) :
    (∃ c : ℝ, 0 < c ∧
      (computeEffects d v rho angle).severe_blast_km = 1.1 * c ∧
      (computeEffects d v rho angle).moderate_blast_km = 2.2 * c ∧
      (computeEffects d v rho angle).light_blast_km = 3.8 * c ∧
      (computeEffects d v rho angle).severe_thermal_km = 1.6 * c ∧
      (computeEffects d v rho angle).light_thermal_km = 4.5 * c) ∧
    (computeEffects d v rho angle).severe_blast_km /
      (computeEffects d v rho angle).moderate_blast_km = 1.1 / 2.2 ∧
    (computeEffects d v rho angle).moderate_blast_km /
      (computeEffects d v rho angle).light_blast_km = 2.2 / 3.8 ∧
    (computeEffects d v rho angle).severe_blast_km /
      (computeEffects d v rho angle).light_blast_km = 1.1 / 3.8 ∧
    (computeEffects d v rho angle).severe_thermal_km /
      (computeEffects d v rho angle).light_thermal_km = 1.6 / 4.5 ∧
    (computeEffects d v rho angle).severe_thermal_km /
      (computeEffects d v rho angle).severe_blast_km = 1.6 / 1.1 ∧
    (computeEffects d v rho angle).severe_blast_km ≤
      (computeEffects d v rho angle).moderate_blast_km ∧
    (computeEffects d v rho angle).moderate_blast_km ≤
      (computeEffects d v rho angle).light_blast_km ∧
    (computeEffects d v rho angle).severe_thermal_km ≤
      (computeEffects d v rho angle).light_thermal_km := by
  set Y := surface_yield_mt
    (joules_to_megatons_tnt (kinetic_energy_joules (mass_from_diameter d rho) v)) angle with hY
  set c : ℝ := (max Y 1e-12) ^ ((1:ℝ)/3) with hc
  have hcpos : 0 < c := by
    apply Real.rpow_pos_of_pos
    exact lt_of_lt_of_le (by norm_num) (le_max_right _ _)
  have hsev : (computeEffects d v rho angle).severe_blast_km = 1.1 * c := rfl
  have hmod : (computeEffects d v rho angle).moderate_blast_km = 2.2 * c := rfl
  have hlig : (computeEffects d v rho angle).light_blast_km = 3.8 * c := rfl
  have hst : (computeEffects d v rho angle).severe_thermal_km = 1.6 * c := rfl
  have hlt : (computeEffects d v rho angle).light_thermal_km = 4.5 * c := rfl
  refine ⟨⟨c, hcpos, hsev, hmod, hlig, hst, hlt⟩, ?_, ?_, ?_, ?_, ?_, ?_, ?_, ?_⟩ <;>
    simp only [hsev, hmod, hlig, hst, hlt] <;>
    first
      | rw [ratio_cancel _ _ hcpos.ne']
      | linarith

/-- C3: for every angle in [1,90] the applied surface-coupling factor
`min(0.55 + 0.5*sin(angle), 1.0)` lies in [0.55, 1.0]; at 90 degrees it equals
exactly 1.0; and the effective surface yield is `max(kinetic_Mt * factor, 1e-9)`
with the angle clamped to [1,90] before use. -/
theorem C3_coupling_factor (angle : ℝ) (h1 : 1 ≤ angle) (h90 : angle ≤ 90) :
    0.55 ≤ specCouplingFactor angle ∧ specCouplingFactor angle ≤ 1 ∧
    specCouplingFactor 90 = 1 ∧
    (∀ kmt a : ℝ, surface_yield_mt kmt a =
      max (kmt * specCouplingFactor (max 1.0 (min 90.0 a))) 1e-9) := by
  obtain ⟨hlo, hhi⟩ := specCouplingFactor_mem h1 h90
  refine ⟨hlo, hhi, ?_, fun kmt a => rfl⟩
  unfold specCouplingFactor
  have : radians 90 = π / 2 := by unfold radians; ring
  rw [this, Real.sin_pi_div_two]
  norm_num

/-- C9: the event classification is "airburst" exactly when diameter < 30 m or
(diameter < 60 m and angle < 40 degrees), otherwise "ground"; and the size
class is given by the half-open breakpoints 10 m, 50 m, 140 m, 300 m, 1 km. -/
theorem C9_classification (d angle : ℝ) (hd : 0 < d) (h1 : 1 ≤ angle) (h90 : angle ≤ 90) :
    (guess_event_type d angle = "airburst" ↔ (d < 30 ∨ (d < 60 ∧ angle < 40))) ∧
    (guess_event_type d angle = "ground" ↔ ¬(d < 30 ∨ (d < 60 ∧ angle < 40))) ∧
    (classify_size d = "<10m" ↔ d < 10) ∧
    (classify_size d = "10-50m" ↔ 10 ≤ d ∧ d < 50) ∧
    (classify_size d = "50-140m" ↔ 50 ≤ d ∧ d < 140) ∧
    (classify_size d = "140-300m" ↔ 140 ≤ d ∧ d < 300) ∧
    (classify_size d = "300m-1km" ↔ 300 ≤ d ∧ d < 1000) ∧
    (classify_size d = ">1km" ↔ 1000 ≤ d) := by
  unfold guess_event_type classify_size
  refine ⟨?_, ?_, ?_, ?_, ?_, ?_, ?_, ?_⟩ <;>
    split_ifs <;> simp_all <;>
    first
      | tauto
      | linarith
      | (intro h; linarith)
      | (constructor <;> intro h <;> linarith)

/-- C4: each of the five radii is monotone non-decreasing when the diameter,
the velocity, or the entry angle is increased on its own (all parameters in
their valid ranges). -/
theorem C4_monotonicity (d d' v v' rho a a' : ℝ)
    (hd : 0 < d) (hdd : d ≤ d') (hv : 0 < v) (hvv : v ≤ v') (hrho : 0 < rho)
    (ha1 : 1 ≤ a) (haa : a ≤ a') (ha90 : a' ≤ 90) :
    radiiLE (computeEffects d v rho a) (computeEffects d' v rho a) ∧
    radiiLE (computeEffects d v rho a) (computeEffects d v' rho a) ∧
    radiiLE (computeEffects d v rho a) (computeEffects d v rho a') :=
  ⟨radiiLE_impact (surface_yield_mt_mono_mt a (kinetic_mt_mono_d hd hdd hv hrho)),
   radiiLE_impact (surface_yield_mt_mono_mt a (kinetic_mt_mono_v hd hv hvv hrho)),
   radiiLE_impact (surface_yield_mt_mono_angle (kinetic_mt_nonneg hd hv hrho) ha1 haa ha90)⟩

/-- Witness for C4 at diameter 50→60 m, velocity 20→25 km/s, angle 45→60°. -/
theorem C4_monotonicity_witness :
    radiiLE (computeEffects 50 20 3000 45) (computeEffects 60 20 3000 45) ∧
    radiiLE (computeEffects 50 20 3000 45) (computeEffects 50 25 3000 45) ∧
    radiiLE (computeEffects 50 20 3000 45) (computeEffects 50 20 3000 60) :=
  C4_monotonicity 50 60 20 25 3000 45 60 (by norm_num) (by norm_num) (by norm_num)
    (by norm_num) (by norm_num) (by norm_num) (by norm_num) (by norm_num)

/-- Witness for C2 at the spec's worked example input. -/
theorem C2_fixed_ratios_witness :
    (computeEffects 50 20 3000 45).severe_blast_km /
        (computeEffects 50 20 3000 45).moderate_blast_km = 1.1 / 2.2 ∧
    (computeEffects 50 20 3000 45).severe_blast_km ≤
        (computeEffects 50 20 3000 45).moderate_blast_km :=
  ⟨(C2_fixed_ratios 50 20 3000 45 (by norm_num) (by norm_num) (by norm_num)).2.1,
   (C2_fixed_ratios 50 20 3000 45 (by norm_num) (by norm_num) (by norm_num)).2.2.2.2.2.2.1⟩

/-- Witness for C3 at the vertical-impact angle. -/
theorem C3_coupling_factor_witness : specCouplingFactor 90 = 1 :=
  (C3_coupling_factor 90 (by norm_num) (by norm_num)).2.2.1

/-- Witness for C9 at diameter 45 m, angle 50°. -/
theorem C9_classification_witness :
    (guess_event_type 45 50 = "airburst" ↔ ((45:ℝ) < 30 ∨ ((45:ℝ) < 60 ∧ (50:ℝ) < 40))) ∧
    (classify_size 45 = "10-50m" ↔ (10:ℝ) ≤ 45 ∧ (45:ℝ) < 50) :=
  ⟨(C9_classification 45 50 (by norm_num) (by norm_num) (by norm_num)).1,
   (C9_classification 45 50 (by norm_num) (by norm_num) (by norm_num)).2.2.2.1⟩

lemma wheelEvent_zoomIn (s : RingsState) :
    (wheelEvent 1 s).zoom = min 20.0 (max 0.2 (s.zoom * 1.2)) := by
  unfold wheelEvent
  rw [if_neg (by norm_num : ¬(1:ℝ) = 0), if_pos (by norm_num : (0:ℝ) < 1)]

lemma wheelEvent_zoomOut (s : RingsState) :
    (wheelEvent (-1) s).zoom = min 20.0 (max 0.2 (s.zoom * (1/1.2))) := by
  unfold wheelEvent
  rw [if_neg (by norm_num : ¬(-1:ℝ) = 0), if_neg (by norm_num : ¬(0:ℝ) < -1)]

lemma zoomIn_closed (n : ℕ) :
    ((wheelEvent 1)^[n] (set_data 0 0 emptyDict)).zoom = min 20.0 ((1.2:ℝ)^n) := by
  induction n with
  | zero =>
    show (set_data 0 0 emptyDict).zoom = _
    show (1.0:ℝ) = _
    rw [pow_zero, min_eq_right (by norm_num)]
    norm_num
  | succ n ih =>
    rw [Function.iterate_succ_apply', wheelEvent_zoomIn, ih]
    have h1 : (1:ℝ) ≤ (1.2:ℝ)^n := one_le_pow₀ (by norm_num)
    have hmin1 : (1:ℝ) ≤ min 20.0 ((1.2:ℝ)^n) := le_min (by norm_num) h1
    rw [max_eq_right (by nlinarith : (0.2:ℝ) ≤ min 20.0 ((1.2:ℝ)^n) * 1.2)]
    rcases le_total ((1.2:ℝ)^n) 20.0 with hle | hge
    · rw [min_eq_right hle, pow_succ]
    · rw [min_eq_left hge, min_eq_left (by norm_num : (20.0:ℝ) ≤ 20.0 * 1.2),
        min_eq_left (by rw [pow_succ]; nlinarith : (20.0:ℝ) ≤ (1.2:ℝ)^(n+1))]

lemma zoomOut_closed (n : ℕ) :
    ((wheelEvent (-1))^[n] (set_data 0 0 emptyDict)).zoom = max 0.2 ((1/1.2:ℝ)^n) := by
  induction n with
  | zero =>
    show (set_data 0 0 emptyDict).zoom = _
    show (1.0:ℝ) = _
    rw [pow_zero, max_eq_right (by norm_num)]
    norm_num
  | succ n ih =>
    rw [Function.iterate_succ_apply', wheelEvent_zoomOut, ih]
    have h1 : ((1/1.2:ℝ))^n ≤ 1 := pow_le_one₀ (by norm_num) (by norm_num)
    have hmax1 : max 0.2 (((1/1.2:ℝ))^n) ≤ 1 := max_le (by norm_num) h1
    have hr : (0:ℝ) < 1/1.2 := by norm_num
    rw [min_eq_right (max_le (by norm_num)
      (by nlinarith : max 0.2 (((1/1.2:ℝ))^n) * (1/1.2) ≤ 20.0))]
    rcases le_total (0.2:ℝ) (((1/1.2:ℝ))^n) with hle | hge
    · rw [max_eq_right hle, pow_succ]
    · rw [max_eq_left hge, max_eq_left (by nlinarith : (0.2:ℝ) * (1/1.2) ≤ 0.2),
        max_eq_left (by rw [pow_succ]; nlinarith : ((1/1.2:ℝ))^(n+1) ≤ 0.2)]

/-- C6: a wheel event multiplies the zoom by 1.2 (delta > 0) or 1/1.2
(delta < 0) clamped to [0.2, 20]; a zero delta leaves the whole view state
unchanged; and repeated zoom-in (resp. zoom-out) from zoom = 1.0 stays inside
[0.2, 20] and saturates at exactly 20.0 (resp. 0.2). -/
theorem C6_wheel_zoom (s : RingsState) (dy : ℝ) (hz1 : 0.2 ≤ s.zoom) (hz2 : s.zoom ≤ 20) :
    (0 < dy → wheelEvent dy s = { s with zoom := min 20.0 (max 0.2 (s.zoom * 1.2)) }) ∧
    (dy < 0 → wheelEvent dy s = { s with zoom := min 20.0 (max 0.2 (s.zoom * (1/1.2))) }) ∧
    (dy = 0 → wheelEvent dy s = s) ∧
    (∀ n : ℕ, 0.2 ≤ ((wheelEvent 1)^[n] (set_data 0 0 emptyDict)).zoom ∧
      ((wheelEvent 1)^[n] (set_data 0 0 emptyDict)).zoom ≤ 20 ∧
      0.2 ≤ ((wheelEvent (-1))^[n] (set_data 0 0 emptyDict)).zoom ∧
      ((wheelEvent (-1))^[n] (set_data 0 0 emptyDict)).zoom ≤ 20) ∧
    (∀ n : ℕ, 17 ≤ n → ((wheelEvent 1)^[n] (set_data 0 0 emptyDict)).zoom = 20) ∧
    (∀ n : ℕ, 9 ≤ n → ((wheelEvent (-1))^[n] (set_data 0 0 emptyDict)).zoom = 0.2) := by
  refine ⟨?_, ?_, ?_, ?_, ?_, ?_⟩
  · intro h
    unfold wheelEvent
    rw [if_neg (ne_of_gt h), if_pos h]
  · intro h
    unfold wheelEvent
    rw [if_neg (ne_of_lt h), if_neg (by linarith : ¬(0:ℝ) < dy)]
  · intro h
    unfold wheelEvent
    rw [if_pos h]
  · intro n
    rw [zoomIn_closed, zoomOut_closed]
    have h1 : (1:ℝ) ≤ (1.2:ℝ)^n := one_le_pow₀ (by norm_num)
    have h2 : ((1/1.2:ℝ))^n ≤ 1 := pow_le_one₀ (by norm_num) (by norm_num)
    refine ⟨le_min (by norm_num) (by linarith), ?_, le_max_left _ _, ?_⟩
    · have := min_le_left (20.0:ℝ) ((1.2:ℝ)^n)
      linarith
    · have := max_le (show (0.2:ℝ) ≤ 20.0 by norm_num)
        (show ((1/1.2:ℝ))^n ≤ 20.0 by linarith)
      linarith
  · intro n hn
    rw [zoomIn_closed,
      min_eq_left (by
        calc (20.0:ℝ) ≤ (1.2:ℝ)^17 := by norm_num
          _ ≤ (1.2:ℝ)^n := pow_le_pow_right₀ (by norm_num) hn)]
    norm_num
  · intro n hn
    rw [zoomOut_closed]
    refine max_eq_left ?_
    calc ((1/1.2:ℝ))^n ≤ ((1/1.2:ℝ))^9 :=
        pow_le_pow_of_le_one (by norm_num) (by norm_num) hn
      _ ≤ 0.2 := by norm_num

/-- Witness for C6: with the state freshly reset by `set_data`, 17 zoom-in
events saturate the zoom at exactly 20. -/
theorem C6_wheel_zoom_witness :
    ((wheelEvent 1)^[17] (set_data 0 0 emptyDict)).zoom = 20 :=
  (C6_wheel_zoom (set_data 0 0 emptyDict) 1 (by norm_num [set_data])
    (by norm_num [set_data])).2.2.2.2.1 17 le_rfl

lemma floor_logb_eq {n : ℤ} {x : ℝ} (h1 : (10:ℝ)^n ≤ x) (h2 : x < (10:ℝ)^(n+1)) :
    ⌊Real.logb 10 x⌋ = n := by
  have hx : 0 < x := lt_of_lt_of_le (zpow_pos (by norm_num) n) h1
  rw [Int.floor_eq_iff]
  constructor
  · rw [Real.le_logb_iff_rpow_le (by norm_num) hx, Real.rpow_intCast]
    exact h1
  · rw [Real.logb_lt_iff_lt_rpow (by norm_num) hx,
      show ((n:ℝ) + 1) = (((n + 1 : ℤ)):ℝ) by push_cast; ring, Real.rpow_intCast]
    exact h2

/-- C7: for positive `x` the nice-number rounder is exactly the thresholded
leading-digit snap times the power-of-ten bracket, its value is always in
{1,2,5} times a power of ten, and the same function yields both the grid step
(120 px target) and the scale-bar length (150 px target) inside redraw. -/
theorem C7_nice_step (x : ℝ) (hx : 0 < x) :
    nice_step x = (if x / (10:ℝ)^⌊Real.logb 10 x⌋ < 1.5 then 1.0
      else if x / (10:ℝ)^⌊Real.logb 10 x⌋ < 3.5 then 2.0
      else if x / (10:ℝ)^⌊Real.logb 10 x⌋ < 7.5 then 5.0
      else 10.0) * (10:ℝ)^⌊Real.logb 10 x⌋ ∧
    (∃ n : ℤ, nice_step x = (10:ℝ)^n ∨ nice_step x = 2 * (10:ℝ)^n ∨
      nice_step x = 5 * (10:ℝ)^n) ∧
    (∀ (e : EffectsDict) (zoom pdx pdy W H : ℝ),
      (buildScene e zoom pdx pdy W H).step_km =
        nice_step (120.0 * (buildScene e zoom pdx pdy W H).km_per_px) ∧
      (buildScene e zoom pdx pdy W H).km_len =
        nice_step (150.0 * (buildScene e zoom pdx pdy W H).km_per_px)) := by
  refine ⟨?_, ?_, fun e zoom pdx pdy W H => ⟨rfl, rfl⟩⟩
  · simp only [nice_step]
    rw [if_neg (not_le.mpr hx)]
    split_ifs <;> ring
  · simp only [nice_step]
    rw [if_neg (not_le.mpr hx)]
    split_ifs with h1 h2 h3
    · exact ⟨⌊Real.logb 10 x⌋, Or.inl (by norm_num)⟩
    · exact ⟨⌊Real.logb 10 x⌋, Or.inr (Or.inl (by norm_num))⟩
    · exact ⟨⌊Real.logb 10 x⌋, Or.inr (Or.inr (by norm_num))⟩
    · refine ⟨⌊Real.logb 10 x⌋ + 1, Or.inl ?_⟩
      rw [zpow_add_one₀ (by norm_num : (10:ℝ) ≠ 0)]
      ring

/-- Witness for C7 at target value 2. -/
theorem C7_nice_step_witness :
    ∃ n : ℤ, nice_step 2 = (10:ℝ)^n ∨ nice_step 2 = 2 * (10:ℝ)^n ∨
      nice_step 2 = 5 * (10:ℝ)^n :=
  (C7_nice_step 2 (by norm_num)).2.1

lemma nice_step_pos (x : ℝ) : 0 < nice_step x := by
  simp only [nice_step]
  split_ifs <;> positivity

lemma rmaxOf_not_present {e : EffectsDict} (h : e.present = false) : rmaxOf e = 1.0 := by
  unfold rmaxOf
  rw [h]
  simp

lemma rmaxOf_all_zero {e : EffectsDict} (h : ∀ k ∈ radiusKeys, e.get k = 0) :
    rmaxOf e = 1.0 := by
  unfold rmaxOf
  split_ifs with hp
  · have hnil : (radiusKeys.map e.get).filter (fun v => decide (v ≠ 0)) = [] := by
      rw [List.filter_eq_nil_iff]
      intro a ha
      rw [List.mem_map] at ha
      obtain ⟨k, hk, rfl⟩ := ha
      simp [h k hk]
    rw [hnil]
    rfl
  · rfl

lemma gridOffsets_ne_nil {half step : ℝ} (hhalf : 0 < half) (hstep : 0 < step) :
    gridOffsets half step ≠ [] := by
  simp only [gridOffsets, ne_eq, List.map_eq_nil_iff, List.range_eq_nil]
  have hm : 0 ≤ ⌊half / step⌋ := Int.floor_nonneg.mpr (by positivity)
  have hM : 0 ≤ ⌊(half + 1e-9) / step⌋ := Int.floor_nonneg.mpr (by positivity)
  omega

/-- C5: for every stored effects dictionary — including the empty one and ones
whose five radius values are all zero or missing — and every viewport with
positive min(width, height) and positive zoom, the redraw scale divisor
`max(Rmax,1e-9) * 1.10` is positive (no division by zero), redraw completes
with a scene whose `Rmax_km` is the code's maximum-of-nonzero-radii (1.0 when
the dict is falsy or when all five values are zero/missing), and the scene
still carries a nonempty grid and a positive-length scale bar; `set_data`
on `(0,0,{})` stores the empty dict at zoom 1. -/
theorem C5_redraw_safe (e : EffectsDict) (zoom pdx pdy W H : ℝ)
    (hmin : 0 < min W H) (hz : 0 < zoom) :
    0 < max (rmaxOf e) 1e-9 * 1.10 ∧
    (∃ s : Scene, redraw e zoom pdx pdy W H = some s ∧
      s.Rmax_km = rmaxOf e ∧
      s.px_per_km = (min W H / 2) / (max (rmaxOf e) 1e-9 * 1.10) * zoom ∧
      0 < s.px_per_km ∧
      (e.present = false → s.Rmax_km = 1.0) ∧
      ((∀ k ∈ radiusKeys, e.get k = 0) → s.Rmax_km = 1.0) ∧
      s.gridXs ≠ [] ∧ s.gridYs ≠ [] ∧ 0 < s.km_len ∧ 0 < s.px_len) ∧
    (set_data 0 0 emptyDict).effects = emptyDict ∧
    (set_data 0 0 emptyDict).zoom = 1.0 := by
  have hW : 0 < W := lt_of_lt_of_le hmin (min_le_left _ _)
  have hH : 0 < H := lt_of_lt_of_le hmin (min_le_right _ _)
  have hdiv : 0 < max (rmaxOf e) 1e-9 * 1.10 := by
    have := le_max_right (rmaxOf e) (1e-9:ℝ)
    nlinarith
  have hpx : 0 < (min W H / 2) / (max (rmaxOf e) 1e-9 * 1.10) * zoom :=
    mul_pos (div_pos (by linarith) hdiv) hz
  have hkpp : 0 < 1.0 / ((min W H / 2) / (max (rmaxOf e) 1e-9 * 1.10) * zoom) :=
    div_pos (by norm_num) hpx
  refine ⟨hdiv, ⟨buildScene e zoom pdx pdy W H, ?_, rfl, rfl, hpx, ?_, ?_, ?_, ?_, ?_, ?_⟩,
    rfl, rfl⟩
  · unfold redraw
    rw [if_neg (by push_neg; exact ⟨hW, hH⟩)]
  · intro h
    exact rmaxOf_not_present h
  · intro h
    exact rmaxOf_all_zero h
  · show gridOffsets ((W / 2) * (1.0 / ((min W H / 2) / (max (rmaxOf e) 1e-9 * 1.10) * zoom)))
      (nice_step (120.0 * (1.0 / ((min W H / 2) / (max (rmaxOf e) 1e-9 * 1.10) * zoom)))) ≠ []
    exact gridOffsets_ne_nil (mul_pos (by linarith) hkpp) (nice_step_pos _)
  · show gridOffsets ((H / 2) * (1.0 / ((min W H / 2) / (max (rmaxOf e) 1e-9 * 1.10) * zoom)))
      (nice_step (120.0 * (1.0 / ((min W H / 2) / (max (rmaxOf e) 1e-9 * 1.10) * zoom)))) ≠ []
    exact gridOffsets_ne_nil (mul_pos (by linarith) hkpp) (nice_step_pos _)
  · exact nice_step_pos _
  · exact mul_pos (nice_step_pos _) hpx

/-- Witness for C5 on the empty dictionary in a 100×100 viewport at zoom 1. -/
theorem C5_redraw_safe_witness :
    0 < max (rmaxOf emptyDict) 1e-9 * 1.10 ∧
    (∃ s : Scene, redraw emptyDict 1 0 0 100 100 = some s ∧
      s.Rmax_km = rmaxOf emptyDict ∧
      s.px_per_km = (min 100 100 / 2) / (max (rmaxOf emptyDict) 1e-9 * 1.10) * 1 ∧
      0 < s.px_per_km ∧
      (emptyDict.present = false → s.Rmax_km = 1.0) ∧
      ((∀ k ∈ radiusKeys, emptyDict.get k = 0) → s.Rmax_km = 1.0) ∧
      s.gridXs ≠ [] ∧ s.gridYs ≠ [] ∧ 0 < s.km_len ∧ 0 < s.px_len) ∧
    (set_data 0 0 emptyDict).effects = emptyDict ∧
    (set_data 0 0 emptyDict).zoom = 1.0 :=
  C5_redraw_safe emptyDict 1 0 0 100 100 (by norm_num) (by norm_num)

lemma gridOffsets_mem {half step : ℝ} (hstep : 0 < step) {k : ℤ}
    (hlo : -half ≤ (k:ℝ) * step) (hhi : (k:ℝ) * step ≤ half) :
    ((k:ℝ) * step) ∈ gridOffsets half step := by
  have hkM : k ≤ ⌊half / step⌋ := by
    refine Int.le_floor.mpr ?_
    rw [le_div_iff₀ hstep]
    exact hhi
  have hkm : -⌊half / step⌋ ≤ k := by
    have : (-k : ℤ) ≤ ⌊half / step⌋ := by
      refine Int.le_floor.mpr ?_
      rw [le_div_iff₀ hstep]
      push_cast
      linarith
    omega
  have hMm : ⌊half / step⌋ ≤ ⌊(half + 1e-9) / step⌋ := by
    refine Int.floor_le_floor ?_
    gcongr
    norm_num
  simp only [gridOffsets]
  rw [List.mem_map]
  refine ⟨(k + ⌊half / step⌋).toNat, List.mem_range.mpr (by omega), ?_⟩
  have hcast : (((k + ⌊half / step⌋).toNat : ℤ)) = k + ⌊half / step⌋ :=
    Int.toNat_of_nonneg (by omega)
  rw [hcast]
  push_cast
  ring

lemma nice_step_eq_two {x : ℝ} (h1 : 3/2 ≤ x) (h2 : x < 7/2) : nice_step x = 2 := by
  have hx : (0:ℝ) < x := by linarith
  have hfl : ⌊Real.logb 10 x⌋ = 0 :=
    floor_logb_eq (by rw [zpow_zero]; linarith) (by norm_num; linarith)
  simp only [nice_step]
  rw [if_neg (not_le.mpr hx), hfl, zpow_zero, div_one,
    if_neg (not_lt.mpr (by linarith : (1.5:ℝ) ≤ x)), if_pos (by linarith : x < 3.5)]
  norm_num

/-- C8 (amended to a zero pan offset): with pan = (0,0), redraw draws a
vertical grid line at every integer multiple of the grid step whose pixel
x-coordinate lies within [0, W], and a horizontal line at every multiple whose
pixel y-coordinate (with the vertical sign inverted) lies within [0, H]. -/
theorem C8_grid_lines (e : EffectsDict) (zoom W H : ℝ)
    (hmin : 0 < min W H) (hz : 0 < zoom) (s : Scene)
    (hs : redraw e zoom 0 0 W H = some s) :
    (∀ k : ℤ, 0 ≤ s.cx + ((k:ℝ) * s.step_km) * s.px_per_km →
      s.cx + ((k:ℝ) * s.step_km) * s.px_per_km ≤ W →
      ((k:ℝ) * s.step_km) ∈ s.gridXs) ∧
    (∀ k : ℤ, 0 ≤ s.cy - ((k:ℝ) * s.step_km) * s.px_per_km →
      s.cy - ((k:ℝ) * s.step_km) * s.px_per_km ≤ H →
      ((k:ℝ) * s.step_km) ∈ s.gridYs) := by
  have hW : 0 < W := lt_of_lt_of_le hmin (min_le_left _ _)
  have hH : 0 < H := lt_of_lt_of_le hmin (min_le_right _ _)
  have hdiv : 0 < max (rmaxOf e) 1e-9 * 1.10 := by
    have := le_max_right (rmaxOf e) (1e-9:ℝ)
    nlinarith
  have hP : 0 < (min W H / 2) / (max (rmaxOf e) 1e-9 * 1.10) * zoom :=
    mul_pos (div_pos (by linarith) hdiv) hz
  have hseq : buildScene e zoom 0 0 W H = s := by
    have := hs
    unfold redraw at this
    rw [if_neg (by push_neg; exact ⟨hW, hH⟩)] at this
    exact Option.some.inj this
  subst hseq
  set P : ℝ := (min W H / 2) / (max (rmaxOf e) 1e-9 * 1.10) * zoom with hPdef
  have hone : (1.0:ℝ) = 1 := by norm_num
  have hhwP : ∀ C : ℝ, C * (1.0 / P) = C / P := by
    intro C
    rw [hone, mul_one_div]
  have hcx : (buildScene e zoom 0 0 W H).cx = W / 2 + 0 := rfl
  have hcy : (buildScene e zoom 0 0 W H).cy = H / 2 + 0 := rfl
  have hpx : (buildScene e zoom 0 0 W H).px_per_km = P := rfl
  have hstepeq : (buildScene e zoom 0 0 W H).step_km = nice_step (120.0 * (1.0 / P)) := rfl
  constructor
  · intro k h1 h2
    rw [hcx, hpx, hstepeq] at h1 h2
    show ((k:ℝ) * nice_step (120.0 * (1.0 / P))) ∈
      gridOffsets ((W / 2) * (1.0 / P)) (nice_step (120.0 * (1.0 / P)))
    rw [hhwP]
    refine gridOffsets_mem (nice_step_pos _) ?_ ?_
    · rw [← neg_div, div_le_iff₀ hP]
      linarith
    · rw [le_div_iff₀ hP]
      linarith
  · intro k h1 h2
    rw [hcy, hpx, hstepeq] at h1 h2
    show ((k:ℝ) * nice_step (120.0 * (1.0 / P))) ∈
      gridOffsets ((H / 2) * (1.0 / P)) (nice_step (120.0 * (1.0 / P)))
    rw [hhwP]
    refine gridOffsets_mem (nice_step_pos _) ?_ ?_
    · rw [← neg_div, div_le_iff₀ hP]
      linarith
    · rw [le_div_iff₀ hP]
      linarith

/-- Witness for C8 on the empty dictionary, zero pan, 100×100 viewport. -/
theorem C8_grid_lines_witness :
    (∀ k : ℤ, 0 ≤ (buildScene emptyDict 1 0 0 100 100).cx +
        ((k:ℝ) * (buildScene emptyDict 1 0 0 100 100).step_km) *
          (buildScene emptyDict 1 0 0 100 100).px_per_km →
      (buildScene emptyDict 1 0 0 100 100).cx +
        ((k:ℝ) * (buildScene emptyDict 1 0 0 100 100).step_km) *
          (buildScene emptyDict 1 0 0 100 100).px_per_km ≤ 100 →
      ((k:ℝ) * (buildScene emptyDict 1 0 0 100 100).step_km) ∈
        (buildScene emptyDict 1 0 0 100 100).gridXs) ∧
    (∀ k : ℤ, 0 ≤ (buildScene emptyDict 1 0 0 100 100).cy -
        ((k:ℝ) * (buildScene emptyDict 1 0 0 100 100).step_km) *
          (buildScene emptyDict 1 0 0 100 100).px_per_km →
      (buildScene emptyDict 1 0 0 100 100).cy -
        ((k:ℝ) * (buildScene emptyDict 1 0 0 100 100).step_km) *
          (buildScene emptyDict 1 0 0 100 100).px_per_km ≤ 100 →
      ((k:ℝ) * (buildScene emptyDict 1 0 0 100 100).step_km) ∈
        (buildScene emptyDict 1 0 0 100 100).gridYs) :=
  C8_grid_lines emptyDict 1 100 100 (by norm_num) (by norm_num)
    (buildScene emptyDict 1 0 0 100 100)
    (by unfold redraw; rw [if_neg (by norm_num)])

/-- C8 counterexample: with pan offset (-100, 0) on a 100×100 viewport the
grid step is 2 km, the drawn vertical lines are only the km offset 0 (at pixel
x = -50, off screen), while the integer multiple 1×2 km sits at pixel
x = -50 + 2·(500/11) ≈ 40.9 ∈ [0, 100] and is not drawn. -/
theorem C8_grid_lines_counterexample :
    (redraw emptyDict 1 (-100) 0 100 100).map Scene.cx = some (-50) ∧
    (redraw emptyDict 1 (-100) 0 100 100).map Scene.px_per_km = some (500/11) ∧
    (redraw emptyDict 1 (-100) 0 100 100).map Scene.step_km = some 2 ∧
    (redraw emptyDict 1 (-100) 0 100 100).map Scene.gridXs = some [0] ∧
    (0:ℝ) ≤ -50 + (((1:ℤ):ℝ) * 2) * (500/11) ∧
    (-50:ℝ) + (((1:ℤ):ℝ) * 2) * (500/11) ≤ 100 ∧
    (((1:ℤ):ℝ) * 2) ∉ ([0] : List ℝ) := by
  have hr : redraw emptyDict 1 (-100) 0 100 100 =
      some (buildScene emptyDict 1 (-100) 0 100 100) := by
    unfold redraw
    rw [if_neg (by norm_num)]
  have hrm : rmaxOf emptyDict = 1.0 := rmaxOf_not_present rfl
  have hPval : (min (100:ℝ) 100 / 2) / (max (rmaxOf emptyDict) 1e-9 * 1.10) * 1 = 500/11 := by
    rw [hrm, min_self, max_eq_left (by norm_num : (1e-9:ℝ) ≤ 1.0)]
    norm_num
  have hkval : (1.0:ℝ) / ((min (100:ℝ) 100 / 2) / (max (rmaxOf emptyDict) 1e-9 * 1.10) * 1)
      = 11/500 := by
    rw [hPval]
    norm_num
  have hstepval : nice_step (120.0 * ((1.0:ℝ) /
      ((min (100:ℝ) 100 / 2) / (max (rmaxOf emptyDict) 1e-9 * 1.10) * 1))) = 2 := by
    rw [hkval]
    exact nice_step_eq_two (by norm_num) (by norm_num)
  have hhalfval : ((100:ℝ) / 2) * ((1.0:ℝ) /
      ((min (100:ℝ) 100 / 2) / (max (rmaxOf emptyDict) 1e-9 * 1.10) * 1)) = 11/10 := by
    rw [hkval]
    norm_num
  have hfloor1 : ⌊(11/10 : ℝ) / 2⌋ = 0 := by
    rw [Int.floor_eq_iff]
    constructor <;> push_cast <;> norm_num
  have hfloor2 : ⌊((11/10 : ℝ) + 1e-9) / 2⌋ = 0 := by
    rw [Int.floor_eq_iff]
    constructor <;> push_cast <;> norm_num
  have hgrid : gridOffsets (11/10 : ℝ) 2 = [0] := by
    simp only [gridOffsets, hfloor1, hfloor2]
    norm_num [show List.range 1 = [0] from rfl]
  refine ⟨?_, ?_, ?_, ?_, by norm_num, by norm_num, by norm_num⟩ <;>
    rw [hr, Option.map_some']
  · show some ((100:ℝ) / 2 + (-100)) = some (-50)
    norm_num
  · show some ((min (100:ℝ) 100 / 2) / (max (rmaxOf emptyDict) 1e-9 * 1.10) * 1) = some (500/11)
    rw [hPval]
  · show some (nice_step (120.0 * ((1.0:ℝ) /
      ((min (100:ℝ) 100 / 2) / (max (rmaxOf emptyDict) 1e-9 * 1.10) * 1)))) = some 2
    rw [hstepval]
  · show some (gridOffsets (((100:ℝ) / 2) * ((1.0:ℝ) /
      ((min (100:ℝ) 100 / 2) / (max (rmaxOf emptyDict) 1e-9 * 1.10) * 1)))
      (nice_step (120.0 * ((1.0:ℝ) /
        ((min (100:ℝ) 100 / 2) / (max (rmaxOf emptyDict) 1e-9 * 1.10) * 1))))) = some [0]
    rw [hhalfval, hstepval, hgrid]

/-- C5 counterexample: on a truthy dictionary whose five radius values are all
zero, the code's `Rmax_km` is 1.0 while the claim's "maximum of the five
radii" is 0, and the resulting `pixels_per_km` differs from the claim's
formula. -/
theorem C5_claim_rmax_counterexample :
    (redraw allZeroDict 1 0 0 2 2).map Scene.Rmax_km = some 1.0 ∧
    claimRmax allZeroDict = 0 ∧
    (redraw allZeroDict 1 0 0 2 2).map Scene.px_per_km ≠
      some ((min (2:ℝ) 2 / 2) / (max (claimRmax allZeroDict) 1e-9 * 1.10) * 1) := by
  have hr : redraw allZeroDict 1 0 0 2 2 = some (buildScene allZeroDict 1 0 0 2 2) := by
    unfold redraw
    rw [if_neg (by norm_num)]
  have hrm : rmaxOf allZeroDict = 1.0 := rmaxOf_all_zero (fun k _ => rfl)
  have hclaim : claimRmax allZeroDict = 0 := by
    unfold claimRmax allZeroDict
    norm_num
  refine ⟨?_, hclaim, ?_⟩
  · rw [hr, Option.map_some']
    show some (rmaxOf allZeroDict) = some 1.0
    rw [hrm]
  · rw [hr, Option.map_some']
    show some ((min (2:ℝ) 2 / 2) / (max (rmaxOf allZeroDict) 1e-9 * 1.10) * 1) ≠ _
    rw [hrm, hclaim, min_self, max_eq_left (by norm_num : (1e-9:ℝ) ≤ 1.0),
      max_eq_right (by norm_num : (0:ℝ) ≤ 1e-9)]
    simp only [ne_eq, Option.some.injEq]
    norm_num

end

end Meteor
